import Mathlib

/-!
# A shallow embedding of the `retrying` Go package

This file embeds `retrying.go` (package `retrying`, a retry/backoff engine)
in Lean 4 and proves properties of the embedding.

Modelling conventions:
* Go `time.Duration` and Go `int` are modelled as `Int` (durations in
  nanoseconds); machine overflow never matters at the values involved.
* Go `error` values are modelled by the inductive `GoErr`; the `nil` error is
  `Option.none`, a non-nil error is `Option.some e`.
* `hashicorp/go-multierror` composites are `GoErr.multi es`; its `Append`
  skips `nil` errors and its `ErrorOrNil` returns `nil` exactly when the
  component list is empty, which `errorOrNil` mirrors.
* The bound operation is stateful in Go (closures over counters); it is
  modelled as a function from the number of previous invocations to the
  outcome of that invocation (`Nat → OpResult`), where an invocation either
  returns an error-or-nil normally or panics with a payload.
* `runtime.Stack(buf, all)` writes into a caller-allocated buffer of exactly
  `stackSize` bytes; the raw trace text the runtime would report is an
  environment parameter (`traces : Nat → String`, one per invocation), and
  `captureStack` models the buffer fill (truncate to the buffer, zero-pad the
  rest, print the whole buffer with `%s`).
* Scheduling nondeterminism of `tryWithTimeout` (the producer goroutine
  racing the deadline timer) is resolved by explicit schedule parameters,
  documented at `coordLoop`.
-/

namespace Retrying

/-- Go error values observable from the package: the two sentinels, a
`fmt.Errorf` validation error, the error synthesised by `wrapRecoverFunc`
from a recovered panic (payload plus captured stack buffer), and a
`go-multierror` composite. -/
inductive GoErr where
  | timeout
  | noFunctionSpecified
  | errorf (msg : String)
  | recovered (payload : String) (trace : String)
  | multi (errs : List GoErr)

/-- `Error()` text of the non-composite errors (`fmt.Errorf` formatting).
The composite case is rendered by `multiText`; attempt errors and builder
validation errors are never themselves composites, so `leafText` of a
`multi` is never consulted by the engine model. -/
def leafText : GoErr → String
  | .timeout => "timeout error"
  | .noFunctionSpecified => "no function is specified"
  | .errorf msg => msg
  | .recovered payload trace => payload ++ "\n" ++ trace ++ "\n"
  | .multi _ => ""

/-- `go-multierror`'s default `ListFormatFunc`: one header line with the
count, then one bullet per component error, in list order. -/
def multiText (es : List GoErr) : String :=
  match es with
  | [e] => "1 error occurred:\n\t* " ++ leafText e ++ "\n\n"
  | _ =>
    toString es.length ++ " errors occurred:\n\t" ++
      String.intercalate "\n\t" (es.map (fun e => "* " ++ leafText e)) ++ "\n\n"

/-- `Error()` text of any modelled Go error. -/
def errText : GoErr → String
  | .multi es => multiText es
  | e => leafText e

/-- `ErrorOrNil` on an accumulated component list: `nil` iff no components. -/
def errorOrNil (es : List GoErr) : Option GoErr :=
  match es with
  | [] => none
  | _ => some (.multi es)

/-- Outcome of one invocation of the raw (pre-recovery) operation: a normal
return carrying the error-or-nil result, or a panic with a payload. -/
inductive OpResult where
  | ok (e : Option GoErr)
  | panics (payload : String)

/-- The `Retryable` struct of `retrying.go`.

Go stores `f func() error` as the recover-wrapped closure; that closure reads
`r.stackSize`/`r.allGoroutines` at call time, so the model keeps the raw
(pre-recovery) behaviour in `f` and applies `wrapRecoverFunc` with the
current field values when the engine runs, which is observationally the same
because the fields cannot change during a run. -/
structure Retryable where
  stackSize : Int
  allGoroutines : Bool
  maxAttemptTimes : Int
  maxDelay : Int
  waitFixed : Int
  waitRandomMin : Int
  waitRandomMax : Int
  f : Nat → OpResult
  errors : List GoErr

/-- `New()`: default stack size 4096, default max attempt times 1, all other
fields at their Go zero values, and a default operation that returns
`ErrNoFunctionSpecified` on every call. -/
def New : Retryable :=
  { stackSize := 4096
    allGoroutines := false
    maxAttemptTimes := 1
    maxDelay := 0
    waitFixed := 0
    waitRandomMin := 0
    waitRandomMax := 0
    f := fun _ => .ok (some .noFunctionSpecified)
    errors := [] }

/-- `Stack(n, all)`: records a validation error when `n ≤ 0`, and sets the
fields unconditionally. -/
def Stack (r : Retryable) (n : Int) (all : Bool) : Retryable :=
  { r with
    errors := if n ≤ 0 then r.errors ++ [.errorf "stack size must be positive integer"] else r.errors
    stackSize := n
    allGoroutines := all }

/-- `MaxAttemptTimes(n)`: records a validation error when `n ≤ 0`, and sets
the field unconditionally. -/
def MaxAttemptTimes (r : Retryable) (n : Int) : Retryable :=
  { r with
    errors := if n ≤ 0 then r.errors ++ [.errorf "max attempt times must be positive integer"] else r.errors
    maxAttemptTimes := n }

/-- `MaxDelay(d)`: records a validation error when `d ≤ 0`, and sets the
field unconditionally. -/
def MaxDelay (r : Retryable) (d : Int) : Retryable :=
  { r with
    errors := if d ≤ 0 then r.errors ++ [.errorf "max delay must be positive duration"] else r.errors
    maxDelay := d }

/-- `WaitFixed(d)`: records a validation error when `d ≤ 0`, and sets the
field unconditionally. -/
def WaitFixed (r : Retryable) (d : Int) : Retryable :=
  { r with
    errors := if d ≤ 0 then r.errors ++ [.errorf "wait fixed must be positive duration"] else r.errors
    waitFixed := d }

/-- `WaitRandom(min, max)`: records one validation error when either bound is
negative and one when `min ≥ max`, and sets both fields unconditionally. -/
def WaitRandom (r : Retryable) (mi ma : Int) : Retryable :=
  { r with
    errors := r.errors
      ++ (if mi < 0 ∨ ma < 0 then [.errorf "wait random min/max must be positive duration"] else [])
      ++ (if mi ≥ ma then [.errorf "wait random min must be smaller than max"] else [])
    waitRandomMin := mi
    waitRandomMax := ma }

/-- The `%s` rendering of the `stackSize`-byte buffer filled by
`runtime.Stack`: the raw trace truncated to the buffer, the remainder of the
buffer still holding its zero bytes; the printed text always has exactly the
buffer's length. -/
def captureStack (n : Nat) (raw : String) : String :=
  ⟨raw.data.take n ++ List.replicate (n - raw.data.length) (Char.ofNat 0)⟩

/-- `wrapRecoverFunc`: a normal return of the raw operation is propagated
unchanged; a panic is recovered at the wrapper boundary and converted into
the non-nil error `fmt.Errorf("%v\n%s\n", payload, buf)` where `buf` is the
`stackSize`-byte buffer written by `runtime.Stack(buf, allGoroutines)`.
`traces k` is the raw trace text the runtime would report at invocation `k`
(its content already reflecting the `allGoroutines` scope). -/
def wrapRecoverFunc (stackSize : Int) (_allGoroutines : Bool)
    (traces : Nat → String) (f : Nat → OpResult) : Nat → Option GoErr :=
  fun k =>
    match f k with
    | .ok e => e
    | .panics payload => some (.recovered payload (captureStack stackSize.toNat (traces k)))

/-- The duration `wait()` hands to `sleep`: `r.waitFixed` unless that is
non-positive and the random bounds satisfy `max > min`, in which case
`min + rand.Int63n(max - min)`; `draw` models the `Int63n` result, a value
in `[0, max - min)`. -/
def waitDuration (r : Retryable) (draw : Int) : Int :=
  let duration := r.waitFixed
  if duration ≤ 0 ∧ r.waitRandomMax > r.waitRandomMin then
    r.waitRandomMin + draw
  else
    duration

/-- `time.Sleep` semantics: a negative or zero duration sleeps for no time at
all; the result is the time actually slept. -/
def sleepFor (d : Int) : Int :=
  if d ≤ 0 then 0 else d

/-- The time `wait()` actually spends sleeping. -/
def waitSlept (r : Retryable) (draw : Int) : Int :=
  sleepFor (waitDuration r draw)

/-- Shape and behaviour of a Go value whose dynamic kind is `Func`:
`reflect.Type` data (`NumIn`, `NumOut`, whether the last output implements
`error`) plus the behaviour of calling it, as a function from the number of
previous calls to that call's outcome.  For a function with no outputs the
error-or-nil component of a normal return is ignored by `Function`. -/
structure FuncVal where
  numIn : Nat
  numOut : Nat
  lastOutImplementsError : Bool
  impl : Nat → OpResult

/-- An `interface{}` argument to `Function`: the nil interface, a non-func
value (carrying the name of its kind), or a func value. -/
inductive GoValue where
  | nilVal
  | nonFunc (kind : String)
  | funcVal (fv : FuncVal)

/-- The Go runtime panic message for a method call on a nil interface value
(`reflect.TypeOf(nil)` returns the nil `Type`; `typ.Kind()` then panics). -/
def nilKindPanic : String :=
  "runtime error: invalid memory address or nil pointer dereference"

/-- `Function(i)`.  Configuration calls are not guarded by any recover, so a
panic inside `Function` escapes to the caller: the model returns
`Except.error` for the panic and `Except.ok` for a normal return.

* `i = nil`: `reflect.TypeOf(nil)` is the nil `Type` and `typ.Kind()` panics
  with a nil-pointer dereference before anything is recorded.
* non-func `i`: one validation error is appended and `r.f` is left unchanged.
* func `i`: a validation error is appended when `NumIn ≠ 0`, and one when
  `NumOut > 0` with a last output not implementing `error`; `r.f` is set
  (unconditionally) to the normalised operation — for `NumOut = 0` a normal
  return is `nil`, otherwise the last output's error-or-nil is returned. -/
def Function (r : Retryable) (v : GoValue) : Except String Retryable :=
  match v with
  | .nilVal => .error nilKindPanic
  | .nonFunc kind =>
    .ok { r with errors := r.errors ++ [.errorf ("expected type func but get " ++ kind)] }
  | .funcVal fv =>
    .ok { r with
      errors := r.errors
        ++ (if fv.numIn ≠ 0 then [.errorf ("expected 0 inputs but get " ++ toString fv.numIn)] else [])
        ++ (if fv.numOut > 0 ∧ ¬fv.lastOutImplementsError then
              [.errorf "expected 0 output or last output implements error interface"] else [])
      f := if fv.numOut = 0 then
             fun k => match fv.impl k with
               | .panics p => .panics p
               | .ok _ => .ok none
           else fv.impl }

/-- The attempt loop of `tryWithoutTimeout`: `fuel` is the loop counter
(`count`, starting at `maxAttemptTimes`), `k` the number of invocations so
far, `acc` the accumulated non-nil attempt errors, `waits` the number of
completed `wait()` calls.  Returns the final error-or-nil result, the total
number of invocations, and the total number of waits.  `multierror.Append`
drops a `nil` error, and a success returns `nil` immediately with no trailing
wait; a failure is appended and is followed by a `wait()` even when it was
the final attempt. -/
def attemptLoop (f : Nat → Option GoErr) :
    Nat → Nat → List GoErr → Nat → Option GoErr × Nat × Nat
  | 0, k, acc, waits => (errorOrNil acc, k, waits)
  | fuel + 1, k, acc, waits =>
    match f k with
    | none => (none, k + 1, waits)
    | some e => attemptLoop f fuel (k + 1) (acc ++ [e]) (waits + 1)

/-- `tryWithoutTimeout()`: run the attempt loop on the recover-wrapped
operation, `maxAttemptTimes` times (a non-positive count runs the loop body
zero times and returns `nil`). -/
def tryWithoutTimeout (r : Retryable) (traces : Nat → String) :
    Option GoErr × Nat × Nat :=
  attemptLoop (wrapRecoverFunc r.stackSize r.allGoroutines traces r.f)
    r.maxAttemptTimes.toNat 0 [] 0

/-- The coordinator loop of `tryWithTimeout()`, with the scheduling
nondeterminism of the `select` race made explicit:

* `timerAt = some m` means the deadline timer fires and wins the `select` at
  coordinator iteration `m` (after `m` results have been received);
  `timerAt = none` means the timer never preempts an available result.
* The producer goroutine sends the attempt results in attempt order, one per
  `select` round, up to `maxAttemptTimes` of them (`fuel`); once it has sent
  them all its loop exits, no further result can arrive, and the deadline
  timer — which always eventually fires — is the only remaining event.
* The producer decrements the shared `count` variable only after the
  `wait()` that follows a send, while the coordinator reads `count`
  immediately after receiving a result: at the check following result
  `k + 1` the producer has completed either `k` or `k + 1` decrements.
  `decDone (k + 1)` tells which: `true` when the decrement for result
  `k + 1` has already happened at that moment.

On a received result: a `nil` error means success and an immediate `nil`
return; otherwise the error is appended and, when the stale `count` read is
non-positive, the accumulated composite is returned; otherwise the loop
continues.  On the timer: `ErrTimeout` is returned at once, discarding the
accumulated errors.  Returns the result and the number of results received. -/
def coordLoop (f : Nat → Option GoErr) (maxA : Int) (timerAt : Option Nat)
    (decDone : Nat → Bool) : Nat → Nat → List GoErr → Option GoErr × Nat
  | fuel, k, acc =>
    if timerAt = some k then (some .timeout, k)
    else
      match fuel with
      | 0 => (some .timeout, k)
      | fuel + 1 =>
        match f k with
        | none => (none, k + 1)
        | some e =>
          let acc := acc ++ [e]
          if maxA - (k : Int) - (if decDone (k + 1) then 1 else 0) ≤ 0 then
            (errorOrNil acc, k + 1)
          else
            coordLoop f maxA timerAt decDone fuel (k + 1) acc

/-- `tryWithTimeout()`: the coordinator run on the recover-wrapped operation,
under the given schedule. -/
def tryWithTimeout (r : Retryable) (traces : Nat → String)
    (timerAt : Option Nat) (decDone : Nat → Bool) : Option GoErr × Nat :=
  coordLoop (wrapRecoverFunc r.stackSize r.allGoroutines traces r.f)
    r.maxAttemptTimes timerAt decDone r.maxAttemptTimes.toNat 0 []

/-- `Try()`: `multierror.Append(nil, r.errors...)` is non-nil exactly when
validation errors were recorded, in which case it is returned at once —
before the operation is ever invoked and before any wait.  Otherwise the
bounded-time engine runs when `maxDelay > 0`, the sequential engine
otherwise.  The result is the returned error-or-nil together with the number
of operation invocations observed by `Try` and the number of `wait()` calls
certainly completed before `Try` returned (in the bounded-time branch the
producer has completed the wait following every delivered result but
possibly the last). -/
def Try (r : Retryable) (traces : Nat → String) (timerAt : Option Nat)
    (decDone : Nat → Bool) : Option GoErr × Nat × Nat :=
  match r.errors with
  | _ :: _ => (some (.multi r.errors), 0, 0)
  | [] =>
    if r.maxDelay > 0 then
      let p := tryWithTimeout r traces timerAt decDone
      (p.1, p.2, p.2 - 1)
    else
      tryWithoutTimeout r traces

/-- One call in a builder chain. -/
inductive BuilderCall where
  | stackC (n : Int) (all : Bool)
  | maxAttemptTimesC (n : Int)
  | maxDelayC (d : Int)
  | waitFixedC (d : Int)
  | waitRandomC (mi ma : Int)
  | functionC (v : GoValue)

/-- Apply one builder call; `Function` may panic (`Except.error`), every
other call returns normally. -/
def applyCall (c : BuilderCall) (r : Retryable) : Except String Retryable :=
  match c with
  | .stackC n all => .ok (Stack r n all)
  | .maxAttemptTimesC n => .ok (MaxAttemptTimes r n)
  | .maxDelayC d => .ok (MaxDelay r d)
  | .waitFixedC d => .ok (WaitFixed r d)
  | .waitRandomC mi ma => .ok (WaitRandom r mi ma)
  | .functionC v => Function r v

/-- Apply a chain of builder calls left to right. -/
def applyChain (cs : List BuilderCall) (r : Retryable) : Except String Retryable :=
  match cs with
  | [] => .ok r
  | c :: cs =>
    match applyCall c r with
    | .error p => .error p
    | .ok r => applyChain cs r

/-- Unwrap an `Except` with a fallback, for building concrete inputs. -/
def okOr (x : Except String Retryable) (d : Retryable) : Retryable :=
  match x with
  | .ok r => r
  | .error _ => d

/-- Discriminator for the `ErrTimeout` sentinel: a Go caller's
`err == ErrTimeout` comparison, true only for the sentinel itself and in
particular false for every composite. -/
def isTimeout : GoErr → Bool
  | .timeout => true
  | _ => false

/-- Discriminator for the bare `ErrNoFunctionSpecified` sentinel: a Go
caller's `err == ErrNoFunctionSpecified` comparison. -/
def isBareNoFunction : GoErr → Bool
  | .noFunctionSpecified => true
  | _ => false

/-- Empty raw trace environment, for concrete runs. -/
def noTrace : Nat → String := fun _ => ""

/-- Schedule in which no producer decrement has happened by the time the
coordinator checks `count` — the deterministic outcome whenever a positive
inter-attempt wait separates the send from the decrement. -/
def decNever : Nat → Bool := fun _ => false

/-- Schedule in which every producer decrement wins the race against the
coordinator's `count` check. -/
def decAlways : Nat → Bool := fun _ => true

/-- A well-shaped `func() error` that fails every call with `boom`. -/
def vFail : GoValue :=
  .funcVal
    { numIn := 0
      numOut := 1
      lastOutImplementsError := true
      impl := fun _ => .ok (some (.errorf "boom")) }

/-- A well-shaped `func() error` that fails twice and then succeeds. -/
def vThirdTime : GoValue :=
  .funcVal
    { numIn := 0
      numOut := 1
      lastOutImplementsError := true
      impl := fun k => .ok (if k < 2 then some (.errorf "early") else none) }

/-- A well-shaped `func()` that panics on every call. -/
def vPanics : GoValue :=
  .funcVal
    { numIn := 0
      numOut := 0
      lastOutImplementsError := false
      impl := fun _ => .panics "DLLM" }

/-- `New().Function(alwaysFailing).MaxDelay(60s).WaitFixed(1s)`: one attempt
(the default), a one-minute deadline, a one-second backoff. -/
def rRace : Retryable :=
  WaitFixed (MaxDelay (okOr (Function New vFail) New) 60000000000) 1000000000

/-- `New().Function(alwaysFailing).MaxAttemptTimes(3).MaxDelay(5s)`. -/
def rBounded : Retryable :=
  MaxDelay (MaxAttemptTimes (okOr (Function New vFail) New) 3) 5000000000

/-- `New().Function(alwaysFailing).MaxAttemptTimes(3)`, no deadline. -/
def rFail3 : Retryable :=
  MaxAttemptTimes (okOr (Function New vFail) New) 3

/-- `New().Function(failsTwiceThenSucceeds).MaxAttemptTimes(5)`, no
deadline. -/
def rThird : Retryable :=
  MaxAttemptTimes (okOr (Function New vThirdTime) New) 5

/-- The buffer printed for a recovered panic has exactly the configured
buffer's length. -/
theorem captureStack_length (n : Nat) (raw : String) :
    (captureStack n raw).length = n := by
  simp only [captureStack, String.length, List.length_append, List.length_take,
    List.length_replicate]
  omega

/-- `ErrorOrNil` of a non-empty component list is the composite of exactly
that list. -/
theorem errorOrNil_ne_nil (es : List GoErr) (h : es ≠ []) :
    errorOrNil es = some (.multi es) := by
  cases es with
  | nil => exact absurd rfl h
  | cons a l => rfl

/-- The attempt loop under an operation failing every call with `g j`:
every attempt's error is appended in order, and the attempt budget, the
invocation count and the wait count are all consumed in full. -/
theorem attemptLoop_allFail (f : Nat → Option GoErr) (g : Nat → GoErr)
    (hfail : ∀ j, f j = some (g j)) :
    ∀ (n k : Nat) (acc : List GoErr) (w : Nat),
      attemptLoop f n k acc w
        = (errorOrNil (acc ++ (List.range' k n).map g), k + n, w + n) := by
  intro n
  induction n with
  | zero => intro k acc w; simp [attemptLoop]
  | succ n ih =>
    intro k acc w
    simp only [attemptLoop, hfail k]
    rw [ih (k + 1) (acc ++ [g k]) (w + 1), List.range'_succ]
    simp only [Prod.mk.injEq, List.map_cons]
    refine ⟨by simp, by omega, by omega⟩

/-- The attempt loop under an operation whose first success is its
`(m+1)`-st call: the loop returns `nil` after `m + 1` invocations and `m`
waits, provided the budget allows reaching that call. -/
theorem attemptLoop_firstSuccess (f : Nat → Option GoErr) :
    ∀ (m n k : Nat) (acc : List GoErr) (w : Nat),
      (∀ j, j < m → f (k + j) ≠ none) → f (k + m) = none → m < n →
      attemptLoop f n k acc w = (none, k + m + 1, w + m) := by
  intro m
  induction m with
  | zero =>
    intro n k acc w _ hsucc hlt
    cases n with
    | zero => omega
    | succ n =>
      have hk : f k = none := by simpa using hsucc
      simp [attemptLoop, hk]
  | succ m ih =>
    intro n k acc w hfails hsucc hlt
    cases n with
    | zero => omega
    | succ n =>
      have h0 : f k ≠ none := by simpa using hfails 0 (Nat.succ_pos m)
      obtain ⟨e, he⟩ := Option.ne_none_iff_exists'.mp h0
      simp only [attemptLoop, he]
      rw [ih n (k + 1) (acc ++ [e]) (w + 1) ?_ ?_ ?_]
      · simp only [Prod.mk.injEq]
        refine ⟨by trivial, by omega, by omega⟩
      · intro j hj
        have hka : k + 1 + j = k + (j + 1) := by omega
        rw [hka]
        exact hfails (j + 1) (by omega)
      · have hka : k + 1 + m = k + (m + 1) := by omega
        rw [hka]
        exact hsucc
      · omega

/-- `Try` on a validly configured `Retryable` with no deadline runs the
sequential engine. -/
theorem Try_of_valid (r : Retryable) (traces : Nat → String)
    (timerAt : Option Nat) (decDone : Nat → Bool)
    (hE : r.errors = []) (hD : ¬ 0 < r.maxDelay) :
    Try r traces timerAt decDone = tryWithoutTimeout r traces := by
  simp [Try, hE, hD]

/-- `Try` on a validly configured `Retryable` with a positive deadline
returns the bounded-time engine's result. -/
theorem Try_fst_timeout (r : Retryable) (traces : Nat → String)
    (timerAt : Option Nat) (decDone : Nat → Bool)
    (hE : r.errors = []) (hD : 0 < r.maxDelay) :
    (Try r traces timerAt decDone).1
      = (tryWithTimeout r traces timerAt decDone).1 := by
  simp [Try, hE, hD]

/-- `Try` on a `Retryable` with recorded validation errors returns the
composite of exactly those errors, with zero invocations and zero waits. -/
theorem Try_of_errors (r : Retryable) (traces : Nat → String)
    (timerAt : Option Nat) (decDone : Nat → Bool) (hE : r.errors ≠ []) :
    Try r traces timerAt decDone = (some (.multi r.errors), 0, 0) := by
  match hl : r.errors with
  | [] => exact absurd hl hE
  | e :: es => simp [Try, hl]

/-- The coordinator under a schedule whose timer event is consumed at
iteration `m`: as long as every earlier delivered result is a failure and
every earlier stale `count` read is still positive, the run returns
`ErrTimeout` — also when the producer's send budget runs out first, since
then no further result can arrive and the timer is the only remaining
event. -/
theorem coordLoop_timeout (f : Nat → Option GoErr) (maxA : Int)
    (decDone : Nat → Bool) (m : Nat) :
    ∀ (fuel k : Nat) (acc : List GoErr), k ≤ m →
      (∀ j, j < m → j < k + fuel → f j ≠ none ∧
        0 < maxA - (j : Int) - (if decDone (j + 1) then 1 else 0)) →
      (coordLoop f maxA (some m) decDone fuel k acc).1 = some .timeout := by
  intro fuel
  induction fuel with
  | zero =>
    intro k acc _ _
    unfold coordLoop
    split
    · rfl
    · rfl
  | succ fuel ih =>
    intro k acc hkm hj
    unfold coordLoop
    split
    · rfl
    · rename_i hne
      have hkm' : k < m := by
        rcases Nat.lt_or_eq_of_le hkm with h | h
        · exact h
        · exact absurd (congrArg some h.symm) hne
      obtain ⟨hfk, hcnt⟩ := hj k hkm' (by omega)
      obtain ⟨e, he⟩ := Option.ne_none_iff_exists'.mp hfk
      simp only [he]
      rw [if_neg (by omega)]
      exact ih (k + 1) (acc ++ [e]) hkm' (fun j h1 h2 => hj j h1 (by omega))

/-- C3: The backoff delay is computed as: if `waitFixed > 0`, the delay
equals `waitFixed` unconditionally (even when random bounds are also
configured, valid or not); otherwise if `waitRandomMax > waitRandomMin`, the
delay equals `waitRandomMin` plus a uniform draw from
`[0, waitRandomMax - waitRandomMin)`, drawn independently on every call;
otherwise the delay is zero.  The delay is the time `wait()` spends in
`sleep` (`time.Sleep` of a non-positive duration sleeps no time); the random
branch's conclusion uses the builder-enforced non-negativity of
`waitRandomMin`, and `draw` is that call's own `rand.Int63n` result. -/
theorem spec_c3 (r : Retryable) (draw : Int) :
    (0 < r.waitFixed → waitSlept r draw = r.waitFixed) ∧
    (r.waitFixed ≤ 0 → 0 ≤ r.waitRandomMin → 0 ≤ draw →
      draw < r.waitRandomMax - r.waitRandomMin →
      waitSlept r draw = r.waitRandomMin + draw) ∧
    (r.waitFixed ≤ 0 → ¬ r.waitRandomMin < r.waitRandomMax →
      waitSlept r draw = 0) := by
  refine ⟨?_, ?_, ?_⟩ <;> intros <;>
    simp only [waitSlept, waitDuration, sleepFor] <;> split <;> omega

/-- Witness for C3 at concrete policies: fixed wait 7ns wins; with no fixed
wait and bounds `[2, 10)`, a draw of 3 sleeps 5ns; with neither configured,
the sleep is zero. -/
theorem spec_c3_witness :
    waitSlept (WaitRandom (WaitFixed New 7) 2 10) 3 = 7 ∧
    waitSlept (WaitRandom New 2 10) 3 = 5 ∧
    waitSlept New 3 = 0 := by
  refine ⟨(spec_c3 (WaitRandom (WaitFixed New 7) 2 10) 3).1 (by decide),
    (spec_c3 (WaitRandom New 2 10) 3).2.1 (by decide) (by decide) (by decide) (by decide),
    (spec_c3 New 3).2.2 (by decide) (by decide)⟩

/-- C4: the recover wrapper propagates a normal return's error-or-nil result
unchanged; a panic never propagates past the wrapper boundary (the wrapper's
codomain has no abnormal-exit channel) — the wrapper returns the non-nil
error `payload ++ "\n" ++ buffer ++ "\n"` whose text carries the panic
payload and the captured stack buffer, the buffer bounded by (indeed equal
to) the configured `stackSize`; and the engine's attempt loop handles the
recovered panic exactly like any other failure: it is appended to the
accumulated report, a wait follows, and the loop moves on to the next
attempt. -/
theorem spec_c4 (stackSize : Int) (allG : Bool) (traces : Nat → String)
    (f : Nat → OpResult) (k : Nat) :
    (∀ e, f k = .ok e → wrapRecoverFunc stackSize allG traces f k = e) ∧
    (∀ p, f k = .panics p →
      wrapRecoverFunc stackSize allG traces f k
          = some (.recovered p (captureStack stackSize.toNat (traces k))) ∧
        leafText (.recovered p (captureStack stackSize.toNat (traces k)))
          = p ++ "\n" ++ captureStack stackSize.toNat (traces k) ++ "\n" ∧
        (captureStack stackSize.toNat (traces k)).length ≤ stackSize.toNat) ∧
    (∀ p, f k = .panics p → ∀ (fuel : Nat) (acc : List GoErr) (w : Nat),
      attemptLoop (wrapRecoverFunc stackSize allG traces f) (fuel + 1) k acc w
        = attemptLoop (wrapRecoverFunc stackSize allG traces f) fuel (k + 1)
            (acc ++ [.recovered p (captureStack stackSize.toNat (traces k))])
            (w + 1)) := by
  refine ⟨?_, ?_, ?_⟩
  · intro e he
    simp [wrapRecoverFunc, he]
  · intro p hp
    refine ⟨by simp [wrapRecoverFunc, hp], rfl, ?_⟩
    exact le_of_eq (captureStack_length _ _)
  · intro p hp fuel acc w
    have hw : wrapRecoverFunc stackSize allG traces f k
        = some (.recovered p (captureStack stackSize.toNat (traces k))) := by
      simp [wrapRecoverFunc, hp]
    simp only [attemptLoop, hw]

/-- Witness for C4: a normally failing call is propagated unchanged; a
panicking call with payload `DLLM` under a 4096-byte buffer is converted to
the recovered error with a 4096-character buffer text; and the attempt loop
steps over the recovered panic to the next attempt. -/
theorem spec_c4_witness :
    wrapRecoverFunc 4096 false noTrace (fun _ => .ok (some (.errorf "x"))) 0
        = some (.errorf "x") ∧
      wrapRecoverFunc 4096 false noTrace (fun _ => .panics "DLLM") 0
        = some (.recovered "DLLM" (captureStack 4096 "")) ∧
      (captureStack 4096 "").length ≤ 4096 ∧
      attemptLoop (wrapRecoverFunc 4096 false noTrace (fun _ => .panics "DLLM"))
          2 0 [] 0
        = attemptLoop (wrapRecoverFunc 4096 false noTrace (fun _ => .panics "DLLM"))
            1 1 [.recovered "DLLM" (captureStack 4096 "")] 1 := by
  refine ⟨(spec_c4 4096 false noTrace (fun _ => .ok (some (.errorf "x"))) 0).1 _ rfl,
    ((spec_c4 4096 false noTrace (fun _ => .panics "DLLM") 0).2.1 _ rfl).1,
    ((spec_c4 4096 false noTrace (fun _ => .panics "DLLM") 0).2.1 _ rfl).2.2, ?_⟩
  simpa using
    (spec_c4 4096 false noTrace (fun _ => .panics "DLLM") 0).2.2 _ rfl 1 [] 0

/-- C10: `Function(nil)` panics inside the builder itself (`typ.Kind()` on
the nil `reflect.Type`): no validation error is recorded on any `Retryable`,
and since configuration calls are outside the recover boundary that guards
operation invocations, the panic escapes to the caller of `Function`. -/
theorem spec_c10 (r : Retryable) :
    Function r GoValue.nilVal = Except.error nilKindPanic := rfl

/-- C1, evaluated at the failing input: `rRace` (one attempt, always failing,
one-minute deadline, one-second backoff) under the schedule in which the
timer never preempts a pending result — so the single attempt result is
delivered to the coordinator long before the deadline — and in which the
producer's post-wait decrement of the shared `count` has not yet happened
when the coordinator checks it (forced by the one-second wait).  `Try`
returns `ErrTimeout`, not the aggregated composite; only under the opposite
(racy, zero-wait) schedule does the composite appear. -/
theorem spec_c1_eval :
    Try rRace noTrace none decNever = (some .timeout, 1, 0) ∧
      Try rRace noTrace none decAlways = (some (.multi [.errorf "boom"]), 1, 0) ∧
      isTimeout .timeout = true ∧
      isTimeout (.multi [.errorf "boom"]) = false :=
  ⟨rfl, rfl, rfl, rfl⟩

/-- C2, refuted at `New().MaxAttemptTimes(3)`: with no bound operation the
default placeholder returning `ErrNoFunctionSpecified` is installed, `Try`
runs the engine, the placeholder is invoked three times (not zero), three
zero-length waits are performed, and the result is a three-component
composite — not the bare `NoFunctionSpecified` sentinel. -/
theorem spec_c2_counterexample :
    Try (MaxAttemptTimes New 3) noTrace none decNever
        = (some (.multi [.noFunctionSpecified, .noFunctionSpecified,
            .noFunctionSpecified]), 3, 3) ∧
      isBareNoFunction (.multi [.noFunctionSpecified, .noFunctionSpecified,
          .noFunctionSpecified]) = false :=
  ⟨rfl, rfl⟩

/-- C6: with no deadline, an operation that always fails (its recover-wrapped
result at invocation `k` being the non-nil error `g k`), run with
`maxAttemptTimes = N ≥ 1`, yields the composite of exactly the `N`
per-attempt failures `g 0, g 1, …, g (N-1)` in attempt order, with the
operation invoked exactly `N` times (and `N` waits performed). -/
theorem spec_c6 (r : Retryable) (traces : Nat → String) (timerAt : Option Nat)
    (decDone : Nat → Bool) (g : Nat → GoErr) (n : Nat)
    (hE : r.errors = []) (hD : ¬ 0 < r.maxDelay)
    (hA : r.maxAttemptTimes = (n : Int)) (hn : 1 ≤ n)
    (hfail : ∀ k,
      wrapRecoverFunc r.stackSize r.allGoroutines traces r.f k = some (g k)) :
    Try r traces timerAt decDone
      = (some (.multi ((List.range n).map g)), n, n) := by
  rw [Try_of_valid r traces timerAt decDone hE hD]
  unfold tryWithoutTimeout
  rw [hA, Int.toNat_natCast,
    attemptLoop_allFail _ g hfail n 0 [] 0,
    List.nil_append, ← List.range_eq_range',
    errorOrNil_ne_nil _ (by simp [List.range_eq_nil]; omega)]
  simp

/-- Witness for C6: `New().Function(alwaysBoom).MaxAttemptTimes(3).Try()`
returns the three-`boom` composite after exactly three invocations. -/
theorem spec_c6_witness :
    Try rFail3 noTrace none decNever
      = (some (.multi [.errorf "boom", .errorf "boom", .errorf "boom"]), 3, 3) :=
  spec_c6 rFail3 noTrace none decNever (fun _ => .errorf "boom") 3
    rfl (by decide) rfl (by decide) (fun _ => rfl)

/-- C7: with no deadline, an operation whose recover-wrapped result first
succeeds at attempt `k ≤ maxAttemptTimes` makes `Try` return `nil`
(`Success`) after exactly `k` invocations, with `k - 1` waits and the `k - 1`
prior failures absent from the result. -/
theorem spec_c7 (r : Retryable) (traces : Nat → String) (timerAt : Option Nat)
    (decDone : Nat → Bool) (k : Nat)
    (hE : r.errors = []) (hD : ¬ 0 < r.maxDelay)
    (hk : 1 ≤ k) (hmax : (k : Int) ≤ r.maxAttemptTimes)
    (hfails : ∀ j, j + 1 < k →
      wrapRecoverFunc r.stackSize r.allGoroutines traces r.f j ≠ none)
    (hsucc :
      wrapRecoverFunc r.stackSize r.allGoroutines traces r.f (k - 1) = none) :
    Try r traces timerAt decDone = (none, k, k - 1) := by
  rw [Try_of_valid r traces timerAt decDone hE hD]
  unfold tryWithoutTimeout
  rw [attemptLoop_firstSuccess _ (k - 1) r.maxAttemptTimes.toNat 0 [] 0
    (fun j hj => by simpa using hfails j (by omega))
    (by simpa using hsucc) (by omega)]
  simp only [Prod.mk.injEq]
  refine ⟨by trivial, by omega, by omega⟩

/-- Witness for C7: an operation failing twice then succeeding, run with
`maxAttemptTimes = 5`, returns `nil` after exactly 3 invocations and 2
waits. -/
theorem spec_c7_witness :
    Try rThird noTrace none decNever = (none, 3, 2) :=
  spec_c7 rThird noTrace none decNever 3 rfl (by decide) (by decide) (by decide)
    (fun j hj => by
      have h2 : j < 2 := by omega
      show (if j < 2 then some (GoErr.errorf "early") else none) ≠ none
      rw [if_pos h2]
      exact Option.some_ne_none _)
    rfl

/-- C2 as amended: for a `Retryable` on which `Function` was never called
(the default placeholder operation is still bound) and whose configuration
records no validation errors, `Try` is not short-circuited by validation:
it runs the engine, the placeholder is invoked once per attempt — each call
failing with `ErrNoFunctionSpecified` — and with `maxAttemptTimes = N ≥ 1`
and no deadline the result is a composite of `N` copies of
`ErrNoFunctionSpecified`, with `N` invocations and `N` (zero-length)
waits. -/
theorem spec_c2_amended (r : Retryable) (traces : Nat → String)
    (timerAt : Option Nat) (decDone : Nat → Bool) (n : Nat)
    (hE : r.errors = []) (hD : ¬ 0 < r.maxDelay)
    (hA : r.maxAttemptTimes = (n : Int)) (hn : 1 ≤ n) (hf : r.f = New.f) :
    Try r traces timerAt decDone
      = (some (.multi (List.replicate n .noFunctionSpecified)), n, n) := by
  rw [Try_of_valid r traces timerAt decDone hE hD]
  unfold tryWithoutTimeout
  rw [hA, Int.toNat_natCast,
    attemptLoop_allFail _ (fun _ => .noFunctionSpecified)
      (fun k => by rw [hf]; rfl) n 0 [] 0,
    List.nil_append,
    errorOrNil_ne_nil _ (by simp [List.range'_eq_nil]; omega)]
  simp [List.map_const']

/-- Witness for C2 as amended: `New().MaxAttemptTimes(5).Try()` yields the
composite of five copies of `ErrNoFunctionSpecified` after five invocations
of the placeholder. -/
theorem spec_c2_witness :
    Try (MaxAttemptTimes New 5) noTrace none decNever
      = (some (.multi [.noFunctionSpecified, .noFunctionSpecified,
          .noFunctionSpecified, .noFunctionSpecified, .noFunctionSpecified]),
         5, 5) :=
  spec_c2_amended (MaxAttemptTimes New 5) noTrace none decNever 5
    rfl (by decide) rfl (by decide) rfl

/-- C8: in bounded-time mode, whenever the coordinator observes the deadline
event — the timer wins the `select` at some iteration `m` reached with only
failures delivered so far and no earlier return — `Try` returns exactly the
`ErrTimeout` sentinel, a value distinct from every composite, so every
failure accumulated from the earlier attempts of the run is discarded from
the result. -/
theorem spec_c8 (r : Retryable) (traces : Nat → String) (decDone : Nat → Bool)
    (m : Nat) (hE : r.errors = []) (hD : 0 < r.maxDelay)
    (hrun : ∀ k, k < m → k < r.maxAttemptTimes.toNat →
      wrapRecoverFunc r.stackSize r.allGoroutines traces r.f k ≠ none ∧
      0 < r.maxAttemptTimes - (k : Int) - (if decDone (k + 1) then 1 else 0)) :
    (Try r traces (some m) decDone).1 = some .timeout ∧
      ∀ es, GoErr.timeout ≠ GoErr.multi es := by
  constructor
  · rw [Try_fst_timeout r traces (some m) decDone hE hD]
    unfold tryWithTimeout
    exact coordLoop_timeout _ _ _ m r.maxAttemptTimes.toNat 0 []
      (Nat.zero_le m) (fun j h1 h2 => hrun j h1 (by omega))
  · intro es h
    exact GoErr.noConfusion h

/-- Witness for C8: `rBounded` (three always-failing attempts, 5s deadline)
under the schedule where the timer fires after two delivered failures
returns `ErrTimeout`. -/
theorem spec_c8_witness :
    (Try rBounded noTrace (some 2) decNever).1 = some GoErr.timeout :=
  (spec_c8 rBounded noTrace decNever 2 rfl (by decide)
    (fun k hk _ => ⟨Option.some_ne_none _, by simp [decNever]; omega⟩)).1

/-- C9: the accumulated validation-error list is monotone — every builder
call that returns normally only appends to it (the original list is a
prefix of the new one), hence so does every chain of calls; and once the
list is non-empty, `Try` returns the non-nil composite of exactly that list
with the operation invoked zero times.  A later call with a valid value for
a previously offending option appends nothing but removes nothing. -/
theorem spec_c9 :
    (∀ (c : BuilderCall) (r r' : Retryable), applyCall c r = .ok r' →
      ∃ es, r'.errors = r.errors ++ es) ∧
    (∀ (cs : List BuilderCall) (r r' : Retryable), applyChain cs r = .ok r' →
      ∃ es, r'.errors = r.errors ++ es) ∧
    (∀ (r : Retryable) (traces : Nat → String) (timerAt : Option Nat)
        (decDone : Nat → Bool), r.errors ≠ [] →
      Try r traces timerAt decDone = (some (.multi r.errors), 0, 0) ∧
        (Try r traces timerAt decDone).1 ≠ none) := by
  have part1 : ∀ (c : BuilderCall) (r r' : Retryable), applyCall c r = .ok r' →
      ∃ es, r'.errors = r.errors ++ es := by
    intro c r r' h
    cases c with
    | stackC n all =>
      injection h with h'
      subst h'
      by_cases hn : n ≤ 0
      · exact ⟨[.errorf "stack size must be positive integer"], by simp [Stack, hn]⟩
      · exact ⟨[], by simp [Stack, hn]⟩
    | maxAttemptTimesC n =>
      injection h with h'
      subst h'
      by_cases hn : n ≤ 0
      · exact ⟨[.errorf "max attempt times must be positive integer"],
          by simp [MaxAttemptTimes, hn]⟩
      · exact ⟨[], by simp [MaxAttemptTimes, hn]⟩
    | maxDelayC d =>
      injection h with h'
      subst h'
      by_cases hd : d ≤ 0
      · exact ⟨[.errorf "max delay must be positive duration"], by simp [MaxDelay, hd]⟩
      · exact ⟨[], by simp [MaxDelay, hd]⟩
    | waitFixedC d =>
      injection h with h'
      subst h'
      by_cases hd : d ≤ 0
      · exact ⟨[.errorf "wait fixed must be positive duration"], by simp [WaitFixed, hd]⟩
      · exact ⟨[], by simp [WaitFixed, hd]⟩
    | waitRandomC mi ma =>
      injection h with h'
      subst h'
      exact ⟨(if mi < 0 ∨ ma < 0 then
            [.errorf "wait random min/max must be positive duration"] else [])
          ++ (if mi ≥ ma then
            [.errorf "wait random min must be smaller than max"] else []),
        by simp [WaitRandom, List.append_assoc]⟩
    | functionC v =>
      cases v with
      | nilVal => exact Except.noConfusion h
      | nonFunc kind =>
        injection h with h'
        subst h'
        exact ⟨[.errorf ("expected type func but get " ++ kind)], rfl⟩
      | funcVal fv =>
        injection h with h'
        subst h'
        exact ⟨(if fv.numIn ≠ 0 then
              [.errorf ("expected 0 inputs but get " ++ toString fv.numIn)] else [])
            ++ (if fv.numOut > 0 ∧ ¬fv.lastOutImplementsError then
              [.errorf "expected 0 output or last output implements error interface"]
              else []),
          by simp [Function, List.append_assoc]⟩
  refine ⟨part1, ?_, ?_⟩
  · intro cs
    induction cs with
    | nil =>
      intro r r' h
      injection h with h'
      subst h'
      exact ⟨[], by simp⟩
    | cons c cs ih =>
      intro r r' h
      unfold applyChain at h
      cases hc : applyCall c r with
      | error p =>
        rw [hc] at h
        exact Except.noConfusion h
      | ok r1 =>
        rw [hc] at h
        obtain ⟨es1, h1⟩ := part1 c r r1 hc
        obtain ⟨es2, h2⟩ := ih r1 r' h
        exact ⟨es1 ++ es2, by rw [h2, h1, List.append_assoc]⟩
  · intro r traces timerAt decDone hne
    refine ⟨Try_of_errors r traces timerAt decDone hne, ?_⟩
    rw [Try_of_errors r traces timerAt decDone hne]
    exact Option.some_ne_none _

/-- Witness for C9: `New().MaxAttemptTimes(-1).MaxAttemptTimes(5)` — the
later valid value does not clear the recorded error, and `Try` returns the
composite of that one error with zero invocations. -/
theorem spec_c9_witness :
    (∃ es, (MaxAttemptTimes New (-1)).errors = New.errors ++ es) ∧
      (∃ es,
        (MaxAttemptTimes (MaxAttemptTimes New (-1)) 5).errors
          = New.errors ++ es) ∧
      Try (MaxAttemptTimes (MaxAttemptTimes New (-1)) 5) noTrace none decNever
        = (some (.multi [.errorf "max attempt times must be positive integer"]),
           0, 0) := by
  refine ⟨spec_c9.1 (.maxAttemptTimesC (-1)) New _ rfl,
    spec_c9.2.1 [.maxAttemptTimesC (-1), .maxAttemptTimesC 5] New _ rfl, ?_⟩
  exact (spec_c9.2.2 (MaxAttemptTimes (MaxAttemptTimes New (-1)) 5)
    noTrace none decNever (by simp [MaxAttemptTimes, New])).1

/-- C5: a configuration built from `New` with a single invalid field —
non-positive attempt count, non-positive deadline, non-positive fixed wait,
negative (non-inverted) random bounds, or inverted (non-negative) random
bounds — makes `Try` return the composite containing exactly the one
validation error recorded for that field, with the operation invoked zero
times and zero waits performed. -/
theorem spec_c5 (traces : Nat → String) (timerAt : Option Nat)
    (decDone : Nat → Bool) :
    (∀ n : Int, n ≤ 0 → Try (MaxAttemptTimes New n) traces timerAt decDone
      = (some (.multi [.errorf "max attempt times must be positive integer"]),
         0, 0)) ∧
    (∀ d : Int, d ≤ 0 → Try (MaxDelay New d) traces timerAt decDone
      = (some (.multi [.errorf "max delay must be positive duration"]),
         0, 0)) ∧
    (∀ d : Int, d ≤ 0 → Try (WaitFixed New d) traces timerAt decDone
      = (some (.multi [.errorf "wait fixed must be positive duration"]),
         0, 0)) ∧
    (∀ mi ma : Int, mi < 0 → mi < ma →
      Try (WaitRandom New mi ma) traces timerAt decDone
        = (some (.multi [.errorf "wait random min/max must be positive duration"]),
           0, 0)) ∧
    (∀ mi ma : Int, 0 ≤ mi → 0 ≤ ma → ma ≤ mi →
      Try (WaitRandom New mi ma) traces timerAt decDone
        = (some (.multi [.errorf "wait random min must be smaller than max"]),
           0, 0)) := by
  refine ⟨?_, ?_, ?_, ?_, ?_⟩
  · intro n hn
    have hE : (MaxAttemptTimes New n).errors
        = [.errorf "max attempt times must be positive integer"] := by
      simp [MaxAttemptTimes, New, hn]
    rw [Try_of_errors _ traces timerAt decDone (by rw [hE]; simp), hE]
  · intro d hd
    have hE : (MaxDelay New d).errors
        = [.errorf "max delay must be positive duration"] := by
      simp [MaxDelay, New, hd]
    rw [Try_of_errors _ traces timerAt decDone (by rw [hE]; simp), hE]
  · intro d hd
    have hE : (WaitFixed New d).errors
        = [.errorf "wait fixed must be positive duration"] := by
      simp [WaitFixed, New, hd]
    rw [Try_of_errors _ traces timerAt decDone (by rw [hE]; simp), hE]
  · intro mi ma h1 h2
    have hE : (WaitRandom New mi ma).errors
        = [.errorf "wait random min/max must be positive duration"] := by
      simp only [WaitRandom, New]
      rw [if_pos (Or.inl h1), if_neg (by omega)]
      simp
    rw [Try_of_errors _ traces timerAt decDone (by rw [hE]; simp), hE]
  · intro mi ma h1 h2 h3
    have hE : (WaitRandom New mi ma).errors
        = [.errorf "wait random min must be smaller than max"] := by
      simp only [WaitRandom, New]
      rw [if_neg (by omega), if_pos (by omega)]
      simp
    rw [Try_of_errors _ traces timerAt decDone (by rw [hE]; simp), hE]

/-- Witness for C5 at concrete invalid configurations, one per field. -/
theorem spec_c5_witness :
    Try (MaxAttemptTimes New 0) noTrace none decNever
      = (some (.multi [.errorf "max attempt times must be positive integer"]),
         0, 0) ∧
    Try (MaxDelay New (-7)) noTrace none decNever
      = (some (.multi [.errorf "max delay must be positive duration"]), 0, 0) ∧
    Try (WaitFixed New 0) noTrace none decNever
      = (some (.multi [.errorf "wait fixed must be positive duration"]), 0, 0) ∧
    Try (WaitRandom New (-1) 1000000000) noTrace none decNever
      = (some (.multi [.errorf "wait random min/max must be positive duration"]),
         0, 0) ∧
    Try (WaitRandom New 60000000000 1000000000) noTrace none decNever
      = (some (.multi [.errorf "wait random min must be smaller than max"]),
         0, 0) := by
  refine ⟨(spec_c5 noTrace none decNever).1 0 (by decide),
    (spec_c5 noTrace none decNever).2.1 (-7) (by decide),
    (spec_c5 noTrace none decNever).2.2.1 0 (by decide),
    (spec_c5 noTrace none decNever).2.2.2.1 (-1) 1000000000 (by decide) (by decide),
    (spec_c5 noTrace none decNever).2.2.2.2 60000000000 1000000000
      (by decide) (by decide) (by decide)⟩

end Retrying
